import Mathlib

/-!
Verification of the GPU resource lifecycle and frame-pipeline coordination
subsystem of the space-thing renderer, shallowly embedded from the Rust
sources (src/gfx.rs, src/gfx/window.rs, src/gfx/buffer.rs, src/gfx/image.rs).

Vulkan handles, semaphores and command buffers are opaque to the CPU-side
logic being verified; we model the subsystem as pure state-transition
functions that additionally emit a trace of the API calls they perform, in
program order.  Machine integers that matter (u32 extents, flag bitmasks,
raw enum values) are modelled as Nat with explicit bounds where overflow or
the u32 sentinel is relevant.
-/

namespace SpaceThing

/-! ## Surface capability / extent selection (src/gfx/window.rs, get_caps) -/

structure Extent2D where
  width : Nat
  height : Nat
deriving DecidableEq, Repr

structure SurfaceCapabilities where
  currentExtent : Extent2D
  minImageExtent : Extent2D
  maxImageExtent : Extent2D
  minImageCount : Nat
deriving DecidableEq, Repr

/-- u32::MAX, the Vulkan sentinel meaning the surface has no fixed extent. -/
def u32Max : Nat := 4294967295

/-- Extent selection of get_caps (window.rs lines 417-425): if the surface
reports a fixed current extent (width is not the u32::MAX sentinel) use it,
otherwise take the window's physical pixel size with each component passed
through max(min_image_extent, min(max_image_extent, size)). -/
def get_caps_extent (caps : SurfaceCapabilities) (windowSize : Extent2D) : Extent2D :=
  if caps.currentExtent.width ≠ u32Max then
    caps.currentExtent
  else
    { width := max caps.minImageExtent.width (min caps.maxImageExtent.width windowSize.width),
      height := max caps.minImageExtent.height (min caps.maxImageExtent.height windowSize.height) }

/-- Clamping a value into the interval from lo to hi, as the spec phrases
"clamp the window's physical pixel size into [min_image_extent,
max_image_extent] component-wise". -/
def clamp_into (lo hi x : Nat) : Nat := max lo (min hi x)

theorem clamp_into_mem (lo hi x : Nat) (h : lo ≤ hi) :
    lo ≤ clamp_into lo hi x ∧ clamp_into lo hi x ≤ hi := by
  unfold clamp_into
  omega

/-! ## Present-mode selection (src/gfx/window.rs, create_swapchain) -/

/-- Raw values of ash's vk::PresentModeKHR constants. -/
def PRESENT_MODE_IMMEDIATE : Nat := 0

def PRESENT_MODE_MAILBOX : Nat := 1

def PRESENT_MODE_FIFO : Nat := 2

def PRESENT_MODE_FIFO_RELAXED : Nat := 3

/-- The key of the min_by_key call in create_swapchain (window.rs lines
443-449): MAILBOX 0, IMMEDIATE 1, FIFO_RELAXED 2, FIFO 3, anything else 4. -/
def present_mode_rank (m : Nat) : Nat :=
  if m = PRESENT_MODE_MAILBOX then 0
  else if m = PRESENT_MODE_IMMEDIATE then 1
  else if m = PRESENT_MODE_FIFO_RELAXED then 2
  else if m = PRESENT_MODE_FIFO then 3
  else 4

/-- Rust's Iterator::min_by_key: the first element attaining the minimal
key (the accumulator is replaced only on a strictly smaller key). -/
def min_by_key_first (key : Nat → Nat) : List Nat → Option Nat
  | [] => none
  | x :: xs => some (xs.foldl (fun acc y => if key y < key acc then y else acc) x)

/-- Present-mode selection of create_swapchain (window.rs lines 439-450). -/
def select_present_mode (modes : List Nat) : Option Nat :=
  min_by_key_first present_mode_rank modes

theorem foldl_min_spec (key : Nat → Nat) (xs : List Nat) (x : Nat) :
    xs.foldl (fun acc y => if key y < key acc then y else acc) x ∈ x :: xs ∧
      ∀ z ∈ x :: xs, key (xs.foldl (fun acc y => if key y < key acc then y else acc) x) ≤ key z := by
  induction xs generalizing x with
  | nil =>
    refine ⟨by simp, ?_⟩
    intro z hz
    rcases List.mem_singleton.mp hz with rfl
    simp
  | cons y ys ih =>
    simp only [List.foldl_cons]
    by_cases hk : key y < key x
    · simp only [if_pos hk]
      obtain ⟨hmem, hle⟩ := ih y
      refine ⟨?_, ?_⟩
      · rcases List.mem_cons.mp hmem with h | h
        · rw [h]; simp
        · simp [h]
      · intro z hz
        rcases List.mem_cons.mp hz with rfl | hz2
        · have := hle y (by simp)
          omega
        · exact hle z hz2
    · simp only [if_neg hk]
      obtain ⟨hmem, hle⟩ := ih x
      refine ⟨?_, ?_⟩
      · rcases List.mem_cons.mp hmem with h | h
        · rw [h]; simp
        · simp [h]
      · intro z hz
        rcases List.mem_cons.mp hz with rfl | hz2
        · exact hle z (by simp)
        · rcases List.mem_cons.mp hz2 with rfl | hz3
          · have := hle x (by simp)
            omega
          · exact hle z (by simp [hz3])

/-! ## Mip level count (modelled: the mipmapped create_device_local_image) -/

/-- Number of leading zero bits of a value stored in a u32, as computed by
Rust's u32::leading_zeros: the count of bit positions in 0..32 lying
strictly above the highest set bit. -/
def leading_zeros_u32 (n : Nat) : Nat :=
  ((List.range 32).filter (fun i => decide (n < 2 ^ i))).length

/-- Modelled from the spec: the repository revision of
create_device_local_image taken by src/gfx.rs lines 213-224 accepts a
mipmapped flag, but only its caller is present under src/ (src/gfx/image.rs
holds an older revision with a fixed mip_levels(1)).  The spec gives the
missing mip-count helper as 32 - leading_zeros(max(width, height, depth)),
equal to floor(log2(max(width, height, depth))) + 1. -/
def max_mipmaps (w h d : Nat) : Nat :=
  32 - leading_zeros_u32 (max w (max h d))

/-- Modelled from the spec: mip level count requested by the image upload,
max_mipmaps when mipmapping is requested and 1 otherwise. -/
def mip_levels (mipmapped : Bool) (w h d : Nat) : Nat :=
  if mipmapped then max_mipmaps w h d else 1

theorem filter_range_gt_length (k L : Nat) :
    ((List.range k).filter (fun i => decide (L < i))).length = k - (L + 1) := by
  induction k with
  | zero => simp
  | succ k ih =>
    rw [List.range_succ, List.filter_append, List.length_append, ih]
    by_cases h : L < k <;> simp [h] <;> omega

theorem leading_zeros_u32_eq (n : Nat) (h1 : 1 ≤ n) (h2 : n < 2 ^ 32) :
    leading_zeros_u32 n = 32 - (Nat.log2 n + 1) := by
  unfold leading_zeros_u32
  have hcong : ((List.range 32).filter (fun i => decide (n < 2 ^ i))) =
      ((List.range 32).filter (fun i => decide (Nat.log2 n < i))) := by
    apply List.filter_congr
    intro i _
    have : n < 2 ^ i ↔ Nat.log2 n < i := by
      constructor
      · intro hlt
        by_contra hle
        push_neg at hle
        have := Nat.log2_self_le (n := n) (by omega)
        have h2i : 2 ^ i ≤ 2 ^ Nat.log2 n := Nat.pow_le_pow_right (by omega) hle
        omega
      · intro hlt
        have := (Nat.log2_lt (n := n) (by omega)).mp hlt
        exact this
    simp [this]
  rw [hcong, filter_range_gt_length]

theorem max_mipmaps_eq_log2 (w h d : Nat) (h1 : 1 ≤ max w (max h d))
    (h2 : max w (max h d) < 2 ^ 32) :
    max_mipmaps w h d = Nat.log2 (max w (max h d)) + 1 := by
  unfold max_mipmaps
  rw [leading_zeros_u32_eq _ h1 h2]
  have hlog : Nat.log2 (max w (max h d)) < 32 :=
    (Nat.log2_lt (by omega)).mpr h2
  omega

/-- Claim C5: when mipmapping is requested for an image upload the mip
level count is floor(log2(max(width, height, depth))) + 1, else it is 1;
for extent (4096, 512, 1) with mipmapping requested the count is 13. -/
theorem C5_mip_level_count (w h d : Nat) (h1 : 1 ≤ max w (max h d))
    (h2 : max w (max h d) < 2 ^ 32) :
    mip_levels true w h d = Nat.log2 (max w (max h d)) + 1 ∧
      mip_levels false w h d = 1 ∧
      mip_levels true 4096 512 1 = 13 := by
  refine ⟨?_, rfl, by decide⟩
  show max_mipmaps w h d = _
  exact max_mipmaps_eq_log2 w h d h1 h2

/-- Claim C5, witness: the theorem instantiated at extent (4096, 512, 1). -/
theorem C5_mip_level_count_witness :
    mip_levels true 4096 512 1 = Nat.log2 (max 4096 (max 512 1)) + 1 ∧
      mip_levels false 4096 512 1 = 1 ∧
      mip_levels true 4096 512 1 = 13 :=
  C5_mip_level_count 4096 512 1 (by decide) (by decide)

/-- Claim C7: if the surface capabilities report a current extent whose
width is not the u32::MAX sentinel, the selected swapchain extent is that
current extent; otherwise each component is the window's physical pixel
size clamped into the min/max image extent range, and in particular lies
inside that range whenever it is nonempty. -/
theorem C7_extent_selection (caps : SurfaceCapabilities) (w : Extent2D) :
    (caps.currentExtent.width ≠ u32Max → get_caps_extent caps w = caps.currentExtent) ∧
      (caps.currentExtent.width = u32Max →
        (get_caps_extent caps w).width
            = clamp_into caps.minImageExtent.width caps.maxImageExtent.width w.width ∧
          (get_caps_extent caps w).height
            = clamp_into caps.minImageExtent.height caps.maxImageExtent.height w.height ∧
          (caps.minImageExtent.width ≤ caps.maxImageExtent.width →
            caps.minImageExtent.width ≤ (get_caps_extent caps w).width ∧
              (get_caps_extent caps w).width ≤ caps.maxImageExtent.width)) := by
  constructor
  · intro h
    simp [get_caps_extent, h]
  · intro h
    have hw : (get_caps_extent caps w).width
        = clamp_into caps.minImageExtent.width caps.maxImageExtent.width w.width := by
      simp [get_caps_extent, h, clamp_into]
    have hh : (get_caps_extent caps w).height
        = clamp_into caps.minImageExtent.height caps.maxImageExtent.height w.height := by
      simp [get_caps_extent, h, clamp_into]
    refine ⟨hw, hh, ?_⟩
    intro hle
    rw [hw]
    exact clamp_into_mem caps.minImageExtent.width caps.maxImageExtent.width w.width hle

/-- Claim C7, witness: a fixed current extent is taken verbatim, and under
the sentinel the window size 1985 is clamped into the range 100..800. -/
theorem C7_extent_selection_witness :
    get_caps_extent
        { currentExtent := ⟨1440, 810⟩, minImageExtent := ⟨1, 1⟩,
          maxImageExtent := ⟨4096, 4096⟩, minImageCount := 2 } ⟨800, 600⟩
      = ⟨1440, 810⟩ ∧
    (get_caps_extent
        { currentExtent := ⟨u32Max, 0⟩, minImageExtent := ⟨100, 100⟩,
          maxImageExtent := ⟨800, 800⟩, minImageCount := 2 } ⟨1985, 50⟩).width
      = clamp_into 100 800 1985 :=
  ⟨(C7_extent_selection
      { currentExtent := ⟨1440, 810⟩, minImageExtent := ⟨1, 1⟩,
        maxImageExtent := ⟨4096, 4096⟩, minImageCount := 2 } ⟨800, 600⟩).1 (by decide),
   ((C7_extent_selection
      { currentExtent := ⟨u32Max, 0⟩, minImageExtent := ⟨100, 100⟩,
        maxImageExtent := ⟨800, 800⟩, minImageCount := 2 } ⟨1985, 50⟩).2 rfl).1⟩

/-- Claim C8: for a non-empty list of reported present modes the selected
mode is a reported mode of minimal rank under the preference order
mailbox, immediate, fifo-relaxed, fifo, anything else; the set containing
fifo and mailbox yields mailbox, and fifo alone yields fifo. -/
theorem C8_present_mode_selection (modes : List Nat) (h : modes ≠ []) :
    (∃ m, select_present_mode modes = some m ∧ m ∈ modes ∧
        ∀ x ∈ modes, present_mode_rank m ≤ present_mode_rank x) ∧
      select_present_mode [PRESENT_MODE_FIFO, PRESENT_MODE_MAILBOX] = some PRESENT_MODE_MAILBOX ∧
      select_present_mode [PRESENT_MODE_FIFO] = some PRESENT_MODE_FIFO := by
  refine ⟨?_, by decide, by decide⟩
  match modes, h with
  | x :: xs, _ =>
    obtain ⟨hmem, hle⟩ := foldl_min_spec present_mode_rank xs x
    exact ⟨_, rfl, hmem, hle⟩

/-- Claim C8, witness: the theorem instantiated at the singleton list
holding fifo. -/
theorem C8_present_mode_selection_witness :
    (∃ m, select_present_mode [PRESENT_MODE_FIFO] = some m ∧ m ∈ [PRESENT_MODE_FIFO] ∧
        ∀ x ∈ [PRESENT_MODE_FIFO], present_mode_rank m ≤ present_mode_rank x) ∧
      select_present_mode [PRESENT_MODE_FIFO, PRESENT_MODE_MAILBOX] = some PRESENT_MODE_MAILBOX ∧
      select_present_mode [PRESENT_MODE_FIFO] = some PRESENT_MODE_FIFO :=
  C8_present_mode_selection [PRESENT_MODE_FIFO] (by decide)

/-! ## Buffer upload (src/gfx/buffer.rs, ImmutableBuffer::from_slice) -/

/-- Raw values of ash's vk::BufferUsageFlags bits. -/
def BUFFER_USAGE_TRANSFER_SRC : Nat := 1

def BUFFER_USAGE_TRANSFER_DST : Nat := 2

/-- One API action performed by ImmutableBuffer::from_slice, with the
arguments the claim depends on. -/
inductive BufEv where
  | create_staging (size : Nat) (host_visible : Bool)
  | copy_into_staging
  | create_dst (size : Nat) (usage : Nat) (device_local : Bool)
  | create_fence (signalled : Bool)
  | record_copy (size : Nat)
  | submit_with_fence
  | await_fence
  | free_cmd
  | destroy_staging
  | free_staging_mem
deriving DecidableEq, Repr

/-- The sequence of API actions performed by ImmutableBuffer::from_slice
(buffer.rs lines 23-68) on a slice of len elements of size size_of_T, in
program order: create the host-visible staging buffer sized to the data
and fill it, create the device-local destination buffer with the requested
usage plus TRANSFER_DST, create an unsignalled fence, record and submit
the one-shot copy with that fence, await the fence, then free the command
buffer, the staging buffer and its memory; the destination handle is
returned. -/
def from_slice_trace (size_of_T len usage : Nat) : List BufEv :=
  let size := size_of_T * len
  [BufEv.create_staging size true,
   BufEv.copy_into_staging,
   BufEv.create_dst size (Nat.lor BUFFER_USAGE_TRANSFER_DST usage) true,
   BufEv.create_fence false,
   BufEv.record_copy size,
   BufEv.submit_with_fence,
   BufEv.await_fence,
   BufEv.free_cmd,
   BufEv.destroy_staging,
   BufEv.free_staging_mem]

/-- Claim C4: for every input slice the upload allocates a host-visible
staging buffer sized to the data and fills it, allocates a device-local
destination with the requested usage plus transfer-destination, records
and submits a one-shot copy with a newly created fence, awaits that fence,
and only then destroys the staging buffer and its memory: all those steps
occur at strictly increasing positions of the trace. -/
theorem C4_buffer_upload_order (size_of_T len usage : Nat) :
    ∃ i1 i2 i3 i4 i5 i6 i7 i8 i9, i1 < i2 ∧ i2 < i3 ∧ i3 < i4 ∧ i4 < i5 ∧
      i5 < i6 ∧ i6 < i7 ∧ i7 < i8 ∧ i8 < i9 ∧
      (from_slice_trace size_of_T len usage).get? i1
          = some (BufEv.create_staging (size_of_T * len) true) ∧
      (from_slice_trace size_of_T len usage).get? i2 = some BufEv.copy_into_staging ∧
      (from_slice_trace size_of_T len usage).get? i3
          = some (BufEv.create_dst (size_of_T * len)
              (Nat.lor BUFFER_USAGE_TRANSFER_DST usage) true) ∧
      (from_slice_trace size_of_T len usage).get? i4 = some (BufEv.create_fence false) ∧
      (from_slice_trace size_of_T len usage).get? i5 = some BufEv.submit_with_fence ∧
      (from_slice_trace size_of_T len usage).get? i6 = some BufEv.await_fence ∧
      (from_slice_trace size_of_T len usage).get? i7 = some BufEv.free_cmd ∧
      (from_slice_trace size_of_T len usage).get? i8 = some BufEv.destroy_staging ∧
      (from_slice_trace size_of_T len usage).get? i9 = some BufEv.free_staging_mem :=
  ⟨0, 1, 2, 3, 5, 6, 7, 8, 9,
    by decide, by decide, by decide, by decide, by decide, by decide, by decide, by decide,
    rfl, rfl, rfl, rfl, rfl, rfl, rfl, rfl, rfl⟩

/-! ## Image upload layout transitions (src/gfx/image.rs) -/

/-- The image layouts appearing in create_device_local_image and
transition_layout. -/
inductive Layout where
  | undefined
  | transfer_dst_optimal
  | shader_read_only_optimal
  | general
deriving DecidableEq, Repr

/-- Raw values of the ash access flag bits used by transition_layout. -/
def ACCESS_TRANSFER_WRITE : Nat := 4096

def ACCESS_SHADER_READ : Nat := 32

/-- Raw values of the ash pipeline stage flag bits used by
transition_layout. -/
def STAGE_TOP_OF_PIPE : Nat := 1

def STAGE_TRANSFER : Nat := 4096

def STAGE_FRAGMENT_SHADER : Nat := 128

/-- The source-side half of transition_layout's masks (image.rs lines
102-106): access and stage for the old layout; none models the
unimplemented arm, which panics. -/
def transition_src_masks : Layout → Option (Nat × Nat)
  | Layout.undefined => some (0, STAGE_TOP_OF_PIPE)
  | Layout.transfer_dst_optimal => some (ACCESS_TRANSFER_WRITE, STAGE_TRANSFER)
  | _ => none

/-- The destination-side half of transition_layout's masks (image.rs lines
107-113). -/
def transition_dst_masks : Layout → Option (Nat × Nat)
  | Layout.transfer_dst_optimal => some (ACCESS_TRANSFER_WRITE, STAGE_TRANSFER)
  | Layout.shader_read_only_optimal => some (ACCESS_SHADER_READ, STAGE_FRAGMENT_SHADER)
  | _ => none

/-- The pipeline barrier recorded by transition_layout (image.rs lines
115-132). -/
structure Barrier where
  old_layout : Layout
  new_layout : Layout
  src_access : Nat
  dst_access : Nat
  src_stage : Nat
  dst_stage : Nat
deriving DecidableEq, Repr

/-- transition_layout (image.rs lines 95-133): builds the barrier for the
given layout pair, or none where the source panics with unimplemented. -/
def transition_layout (old_layout new_layout : Layout) : Option Barrier := do
  let s ← transition_src_masks old_layout
  let d ← transition_dst_masks new_layout
  some { old_layout := old_layout, new_layout := new_layout,
         src_access := s.1, dst_access := d.1, src_stage := s.2, dst_stage := d.2 }

/-- One command recorded into the one-shot command buffer of
create_device_local_image. -/
inductive ImgCmd where
  | pipeline_barrier (b : Barrier)
  | copy_buffer_to_image (dst_layout : Layout)
deriving DecidableEq, Repr

/-- The commands recorded by create_device_local_image (image.rs lines
46-66), in recording order: transition undefined to
transfer-dst-optimal, copy the staging buffer into the image at
transfer-dst-optimal, transition to shader-read-only-optimal. -/
def create_device_local_image_cmds : Option (List ImgCmd) := do
  let b1 ← transition_layout Layout.undefined Layout.transfer_dst_optimal
  let b2 ← transition_layout Layout.transfer_dst_optimal Layout.shader_read_only_optimal
  some [ImgCmd.pipeline_barrier b1,
        ImgCmd.copy_buffer_to_image Layout.transfer_dst_optimal,
        ImgCmd.pipeline_barrier b2]

/-- Claim C6: the one-shot command buffer of every image upload performs a
layout transition from undefined to transfer-destination-optimal strictly
before the staging-to-image copy and a transition from
transfer-destination-optimal to shader-read-only-optimal strictly after
it; both transitions fall in the implemented arms of transition_layout. -/
theorem C6_image_layout_transitions :
    ∃ cmds b1 b2 i j k,
      create_device_local_image_cmds = some cmds ∧
      i < j ∧ j < k ∧
      cmds.get? i = some (ImgCmd.pipeline_barrier b1) ∧
      b1.old_layout = Layout.undefined ∧ b1.new_layout = Layout.transfer_dst_optimal ∧
      cmds.get? j = some (ImgCmd.copy_buffer_to_image Layout.transfer_dst_optimal) ∧
      cmds.get? k = some (ImgCmd.pipeline_barrier b2) ∧
      b2.old_layout = Layout.transfer_dst_optimal ∧
      b2.new_layout = Layout.shader_read_only_optimal := by
  refine ⟨[ImgCmd.pipeline_barrier
              { old_layout := Layout.undefined, new_layout := Layout.transfer_dst_optimal,
                src_access := 0, dst_access := ACCESS_TRANSFER_WRITE,
                src_stage := STAGE_TOP_OF_PIPE, dst_stage := STAGE_TRANSFER },
            ImgCmd.copy_buffer_to_image Layout.transfer_dst_optimal,
            ImgCmd.pipeline_barrier
              { old_layout := Layout.transfer_dst_optimal,
                new_layout := Layout.shader_read_only_optimal,
                src_access := ACCESS_TRANSFER_WRITE, dst_access := ACCESS_SHADER_READ,
                src_stage := STAGE_TRANSFER, dst_stage := STAGE_FRAGMENT_SHADER }],
          _, _, 0, 1, 2, by decide, by decide, by decide, rfl, rfl, rfl, rfl, rfl, rfl, rfl⟩

/-! ## The present loop and swapchain recreation (src/gfx/window.rs) -/

/-- One Vulkan call made by Window::draw or Window::recreate_swapchain.
Slots are the two frame-parity values; events touching a FrameSlot carry
the slot they act on. -/
inductive Ev where
  | acquire (slot : Bool)
  | wait_fence (slot : Bool)
  | reset_fence (slot : Bool)
  | toggle
  | reset_pool (slot : Bool)
  | alloc_secondaries (slot : Bool) (count : Nat)
  | record_secondary (slot : Bool)
  | record_primary (slot : Bool)
  | submit (slot : Bool)
  | present
  | schedule_recreate
  | abort
  | destroy_framebuffer
  | destroy_pipeline
  | destroy_image_view
  | destroy_swapchain
  | destroy_desc_pool
  | query_caps
  | create_swapchain
  | create_desc_pool
  | create_pipeline
  | create_framebuffers
deriving DecidableEq, Repr

/-- Events that destroy an old swapchain resource. -/
def is_destroy_ev : Ev → Bool
  | Ev.destroy_framebuffer => true
  | Ev.destroy_pipeline => true
  | Ev.destroy_image_view => true
  | Ev.destroy_swapchain => true
  | Ev.destroy_desc_pool => true
  | _ => false

/-- Events that can be emitted by recreate_swapchain other than its
initial fence wait: resource setup and teardown only. -/
def is_setup_ev : Ev → Bool
  | Ev.destroy_framebuffer => true
  | Ev.destroy_pipeline => true
  | Ev.destroy_image_view => true
  | Ev.destroy_swapchain => true
  | Ev.destroy_desc_pool => true
  | Ev.query_caps => true
  | Ev.create_swapchain => true
  | Ev.create_desc_pool => true
  | Ev.create_pipeline => true
  | Ev.create_framebuffers => true
  | _ => false

/-- CPU-visible state of a frame-complete fence: signaled (as created, or
after the GPU retired the batch), pending (attached to a submitted,
possibly still running batch), or unsubmitted (reset with no batch
attached - a wait on it would never return). -/
inductive FenceSt where
  | signaled
  | pending
  | unsubmitted
deriving DecidableEq, Repr

/-- The per-slot state of a FrameData that the claims depend on: the
frame_finished fence and the growable pool of secondary command buffers
(modelled by their count as a list of units). -/
structure FrameDataM where
  frame_finished : FenceSt
  secondaries : List Unit
deriving DecidableEq, Repr

/-- FrameData::new (window.rs lines 376-397): the fence is created with
FenceCreateFlags::SIGNALED and the secondary pool starts empty. -/
def FrameData_new : FrameDataM :=
  { frame_finished := FenceSt.signaled, secondaries := [] }

/-- The Window state touched by draw and recreate_swapchain: the frame
parity bit, the recreation flag, both FrameSlots, and the counts of live
framebuffers and image views. -/
structure WindowState where
  frame : Bool
  recreate_flag : Bool
  frame_data_0 : FrameDataM
  frame_data_1 : FrameDataM
  n_framebuffers : Nat
  n_image_views : Nat
deriving DecidableEq, Repr

def frame_data_of (s : WindowState) (b : Bool) : FrameDataM :=
  if b then s.frame_data_1 else s.frame_data_0

def set_frame_data (s : WindowState) (b : Bool) (fd : FrameDataM) : WindowState :=
  if b then { s with frame_data_1 := fd } else { s with frame_data_0 := fd }

/-- Window::new (window.rs lines 33-123): both FrameSlots fresh from
FrameData::new, parity false, no recreation pending, one framebuffer per
swapchain image view. -/
def Window_new (n_views : Nat) : WindowState :=
  { frame := false, recreate_flag := false,
    frame_data_0 := FrameData_new, frame_data_1 := FrameData_new,
    n_framebuffers := n_views, n_image_views := n_views }

/-- The calls made by Window::recreate_swapchain (window.rs lines
303-339), in program order: wait on the fence of the slot not currently
selected, destroy every framebuffer, destroy the pipeline, destroy every
image view, query the surface capabilities, create the new swapchain
(passing the old one), destroy the old swapchain, rebuild the stencil
descriptor pool when the image count changed, then create the new
pipeline and framebuffers. -/
def recreate_trace (frame : Bool) (n_framebuffers n_image_views new_n_image_views : Nat) :
    List Ev :=
  Ev.wait_fence (!frame) ::
    (List.replicate n_framebuffers Ev.destroy_framebuffer ++
      [Ev.destroy_pipeline] ++
      List.replicate n_image_views Ev.destroy_image_view ++
      [Ev.query_caps, Ev.create_swapchain, Ev.destroy_swapchain] ++
      (if new_n_image_views ≠ n_image_views then [Ev.destroy_desc_pool, Ev.create_desc_pool]
        else []) ++
      [Ev.create_pipeline, Ev.create_framebuffers])

/-- State change of recreate_swapchain: the image view and framebuffer
counts track the new swapchain; the parity, the slots and the recreation
flag are untouched (the source never clears recreate_swapchain). -/
def recreate_state (s : WindowState) (new_n_image_views : Nat) : WindowState :=
  { s with n_image_views := new_n_image_views, n_framebuffers := new_n_image_views }

/-- Outcome of the acquire_next_image call (window.rs lines 134-152): a
successful index with the suboptimal flag, ERROR_OUT_OF_DATE_KHR, or any
other error (which the source panics on). -/
inductive AcquireRes where
  | ok (idx : Nat) (suboptimal : Bool)
  | out_of_date
  | other_error
deriving DecidableEq, Repr

/-- Outcome of the queue_present call (window.rs lines 291-295): Ok with
the suboptimal flag, ERROR_OUT_OF_DATE_KHR, or any other error (which the
source panics on). -/
inductive PresentRes where
  | ok (suboptimal : Bool)
  | out_of_date
  | other_error
deriving DecidableEq, Repr

/-- The environment-chosen inputs of one draw call: the acquire and
present outcomes, the image view count of any swapchain rebuilt this
call, the number of drawable volumes (the source pins this to the
placeholder 1 at window.rs line 164, with a TODO to supply the real
registered volumes the spec describes), and the number of queued voxel
stencil writes drained into the primary buffer. -/
structure DrawIn where
  acq : AcquireRes
  pres : PresentRes
  new_n_image_views : Nat
  volumes_len : Nat
  set_cmds : Nat
deriving DecidableEq, Repr

/-- Secondary command buffer pool growth (window.rs lines 165-171): when
fewer buffers exist than volumes are to be drawn, allocate exactly the
difference and append; otherwise leave the pool alone. -/
def grow_secondaries (secondaries : List Unit) (volumes_len : Nat) : List Unit :=
  if secondaries.length < volumes_len then
    secondaries ++ List.replicate (volumes_len - secondaries.length) ()
  else secondaries

/-- The part of Window::draw after acquire succeeded (window.rs lines
155-295): wait on the current slot's fence and reset it, toggle the
parity, reset the slot's command pool, grow the secondary pool if needed,
re-record one secondary per volume and the primary (including the drained
stencil dispatches), submit with the slot's fence, then present and
handle the present result.  All recording, the submit and the fence
belong to the pre-toggle slot cur. -/
def draw_submit_path (s2 : WindowState) (cur : Bool) (i : DrawIn) :
    List Ev × WindowState :=
  let fd := frame_data_of s2 cur
  let oldLen := fd.secondaries.length
  let allocEvs : List Ev :=
    if oldLen < i.volumes_len then [Ev.alloc_secondaries cur (i.volumes_len - oldLen)] else []
  let newSec := grow_secondaries fd.secondaries i.volumes_len
  let recEvs := List.replicate (min i.volumes_len newSec.length) (Ev.record_secondary cur)
  let fd2 := { fd with frame_finished := FenceSt.pending, secondaries := newSec }
  let s3 := { set_frame_data s2 cur fd2 with frame := !cur }
  let core := Ev.wait_fence cur :: Ev.reset_fence cur :: Ev.toggle :: Ev.reset_pool cur ::
    (allocEvs ++ recEvs ++ [Ev.record_primary cur, Ev.submit cur, Ev.present])
  match i.pres with
  | PresentRes.ok false => (core, s3)
  | PresentRes.ok true => (core ++ [Ev.schedule_recreate], { s3 with recreate_flag := true })
  | PresentRes.out_of_date =>
      (core ++ [Ev.schedule_recreate], { s3 with recreate_flag := true })
  | PresentRes.other_error => (core ++ [Ev.abort], s3)

/-- Window::draw (window.rs lines 125-297): run recreate_swapchain first
when flagged, acquire the next image with the current slot's
image-acquired semaphore, then either return early scheduling a
recreation (ERROR_OUT_OF_DATE_KHR), abort (any other acquire error), or
run the submit path; a suboptimal acquire only schedules a recreation and
draws anyway. -/
def drawStep (s : WindowState) (i : DrawIn) : List Ev × WindowState :=
  let pre : List Ev :=
    if s.recreate_flag then
      recreate_trace s.frame s.n_framebuffers s.n_image_views i.new_n_image_views
    else []
  let s1 := if s.recreate_flag then recreate_state s i.new_n_image_views else s
  let cur := s1.frame
  match i.acq with
  | AcquireRes.out_of_date =>
      (pre ++ [Ev.acquire cur, Ev.schedule_recreate], { s1 with recreate_flag := true })
  | AcquireRes.other_error => (pre ++ [Ev.acquire cur, Ev.abort], s1)
  | AcquireRes.ok _ sub =>
      let subEvs : List Ev := if sub then [Ev.schedule_recreate] else []
      let s2 := if sub then { s1 with recreate_flag := true } else s1
      let r := draw_submit_path s2 cur i
      (pre ++ Ev.acquire cur :: (subEvs ++ r.1), r.2)

/-- The present loop's reachable Window states: the state after
Window::new, and anything obtained from a reachable state by one draw
call. -/
inductive Reachable : WindowState → Prop where
  | init (n_views : Nat) : Reachable (Window_new n_views)
  | step (s : WindowState) (i : DrawIn) : Reachable s → Reachable (drawStep s i).2

/-- A fence wait on this fence state returns: the fence is signaled, or a
submitted batch will signal it. -/
def fence_live (f : FenceSt) : Prop := f = FenceSt.signaled ∨ f = FenceSt.pending

/-- There is no submit event in the trace. -/
def draw_skipped (t : List Ev) : Prop := ∀ b, Ev.submit b ∉ t

/-- The trace aborts the process. -/
def aborts (t : List Ev) : Prop := Ev.abort ∈ t

/-- The acquire call reported the swapchain out-of-date or suboptimal. -/
def acquire_stale (a : AcquireRes) : Prop :=
  a = AcquireRes.out_of_date ∨ ∃ idx, a = AcquireRes.ok idx true

theorem forall_mem_replicate_setup (n : Nat) (x : Ev) (hx : is_setup_ev x = true) :
    ∀ e ∈ List.replicate n x, is_setup_ev e = true := by
  intro e he
  rw [List.eq_of_mem_replicate he]
  exact hx

theorem recreate_trace_mem (f : Bool) (a b c : Nat) :
    ∀ e ∈ recreate_trace f a b c, e = Ev.wait_fence (!f) ∨ is_setup_ev e = true := by
  have htail : ∀ e ∈ (List.replicate a Ev.destroy_framebuffer ++ [Ev.destroy_pipeline] ++
      List.replicate b Ev.destroy_image_view ++
      [Ev.query_caps, Ev.create_swapchain, Ev.destroy_swapchain] ++
      (if c ≠ b then [Ev.destroy_desc_pool, Ev.create_desc_pool] else []) ++
      [Ev.create_pipeline, Ev.create_framebuffers]), is_setup_ev e = true := by
    simp only [List.forall_mem_append]
    refine ⟨⟨⟨⟨⟨?_, ?_⟩, ?_⟩, ?_⟩, ?_⟩, ?_⟩
    · exact forall_mem_replicate_setup a Ev.destroy_framebuffer rfl
    · intro e he; rw [List.mem_singleton.mp he]; rfl
    · exact forall_mem_replicate_setup b Ev.destroy_image_view rfl
    · intro e he
      rcases List.mem_cons.mp he with rfl | he2
      · rfl
      rcases List.mem_cons.mp he2 with rfl | he3
      · rfl
      rw [List.mem_singleton.mp he3]
      rfl
    · split
      · intro e he
        rcases List.mem_cons.mp he with rfl | he2
        · rfl
        rw [List.mem_singleton.mp he2]
        rfl
      · intro e he
        cases he
    · intro e he
      rcases List.mem_cons.mp he with rfl | he2
      · rfl
      rw [List.mem_singleton.mp he2]
      rfl
  intro e he
  rcases List.mem_cons.mp he with rfl | he2
  · exact Or.inl rfl
  · exact Or.inr (htail e he2)

theorem abort_not_mem_recreate (f : Bool) (a b c : Nat) :
    Ev.abort ∉ recreate_trace f a b c := by
  intro h
  rcases recreate_trace_mem f a b c _ h with h2 | h2
  · cases h2
  · simp [is_setup_ev] at h2

theorem submit_not_mem_recreate (f : Bool) (a b c : Nat) (sl : Bool) :
    Ev.submit sl ∉ recreate_trace f a b c := by
  intro h
  rcases recreate_trace_mem f a b c _ h with h2 | h2
  · cases h2
  · simp [is_setup_ev] at h2

theorem present_not_mem_recreate (f : Bool) (a b c : Nat) :
    Ev.present ∉ recreate_trace f a b c := by
  intro h
  rcases recreate_trace_mem f a b c _ h with h2 | h2
  · cases h2
  · simp [is_setup_ev] at h2

theorem alloc_not_mem_recreate (f : Bool) (a b c : Nat) (sl : Bool) (k : Nat) :
    Ev.alloc_secondaries sl k ∉ recreate_trace f a b c := by
  intro h
  rcases recreate_trace_mem f a b c _ h with h2 | h2
  · cases h2
  · simp [is_setup_ev] at h2

theorem grow_secondaries_extend (sec : List Unit) (v : Nat) :
    ∃ t, sec ++ t = grow_secondaries sec v := by
  unfold grow_secondaries
  split
  · exact ⟨_, rfl⟩
  · exact ⟨[], by simp⟩

/-- Claim C1: recreate_swapchain first waits on the frame-complete fence
of the slot not currently selected, and every destruction of an old
swapchain resource (framebuffers, pipeline, image views, old swapchain,
descriptor pool) sits strictly after that wait in the trace, on every
execution path; the pipeline and old swapchain destructions do occur. -/
theorem C1_recreate_wait_precedes_destroy (f : Bool) (nfb niv niv2 : Nat) :
    ∃ rest, recreate_trace f nfb niv niv2 = Ev.wait_fence (!f) :: rest ∧
      Ev.destroy_pipeline ∈ rest ∧ Ev.destroy_swapchain ∈ rest ∧
      (∀ i e, (recreate_trace f nfb niv niv2).get? i = some e →
        is_destroy_ev e = true → 0 < i) := by
  refine ⟨_, rfl, ?_, ?_, ?_⟩
  · simp
  · simp
  · intro i e hget hdes
    cases i with
    | zero =>
      rw [show (recreate_trace f nfb niv niv2).get? 0 = some (Ev.wait_fence (!f)) from rfl] at hget
      cases hget
      cases hdes
    | succ n => exact Nat.succ_pos n

/-- Claim C1, witness: the theorem instantiated for parity false with
three framebuffers, three image views, and an unchanged image count. -/
theorem C1_recreate_wait_precedes_destroy_witness :
    ∃ rest, recreate_trace false 3 3 3 = Ev.wait_fence (!false) :: rest ∧
      Ev.destroy_pipeline ∈ rest ∧ Ev.destroy_swapchain ∈ rest ∧
      (∀ i e, (recreate_trace false 3 3 3).get? i = some e →
        is_destroy_ev e = true → 0 < i) :=
  C1_recreate_wait_precedes_destroy false 3 3 3

/-- Claim C2: on every draw call whose acquire succeeds, the trace splits
as the pending-recreation prelude, then acquire on the current slot, then
at most a recreation flagging, then in strict order the wait on that
slot's fence, the fence reset, the parity toggle, the command pool reset,
the secondary allocations, the secondary recordings, the primary
recording, the submit and the present, followed only by flagging or
abort; every recording, the wait, the reset and the submit name the
just-waited pre-toggle slot, and the prelude holds no draw-phase event
(only the other slot's wait and resource setup/teardown). -/
theorem C2_draw_order (s : WindowState) (i : DrawIn) (idx : Nat) (sub : Bool)
    (hacq : i.acq = AcquireRes.ok idx sub) :
    ∃ pre flagEvs allocEvs n tail,
      (drawStep s i).1 =
        pre ++ Ev.acquire s.frame ::
          (flagEvs ++
            (Ev.wait_fence s.frame :: Ev.reset_fence s.frame :: Ev.toggle ::
              Ev.reset_pool s.frame ::
              (allocEvs ++ List.replicate n (Ev.record_secondary s.frame) ++
                [Ev.record_primary s.frame, Ev.submit s.frame, Ev.present])) ++ tail) ∧
      (∀ e ∈ pre, e = Ev.wait_fence (!s.frame) ∨ is_setup_ev e = true) ∧
      (∀ e ∈ flagEvs, e = Ev.schedule_recreate) ∧
      (∀ e ∈ allocEvs, ∃ k, e = Ev.alloc_secondaries s.frame k) ∧
      (∀ e ∈ tail, e = Ev.schedule_recreate ∨ e = Ev.abort) := by
  obtain ⟨acq, pres, nv, vl, sc⟩ := i
  simp only at hacq
  subst hacq
  refine ⟨(if s.recreate_flag then
        recreate_trace s.frame s.n_framebuffers s.n_image_views nv else []),
      (if sub then [Ev.schedule_recreate] else []),
      (if (frame_data_of s s.frame).secondaries.length < vl then
        [Ev.alloc_secondaries s.frame (vl - (frame_data_of s s.frame).secondaries.length)]
        else []),
      min vl (grow_secondaries (frame_data_of s s.frame).secondaries vl).length,
      (match pres with
        | PresentRes.ok false => []
        | PresentRes.ok true => [Ev.schedule_recreate]
        | PresentRes.out_of_date => [Ev.schedule_recreate]
        | PresentRes.other_error => [Ev.abort]), ?_, ?_, ?_, ?_, ?_⟩
  · by_cases hrf : s.recreate_flag <;> cases sub <;>
      rcases pres with pb | _ | _ <;> try cases pb
    all_goals
      simp [drawStep, draw_submit_path, recreate_state, frame_data_of, set_frame_data,
        grow_secondaries, hrf, List.append_assoc]
  · by_cases hrf : s.recreate_flag <;> simp only [hrf, if_true, if_false, ite_true, ite_false]
    · exact recreate_trace_mem s.frame s.n_framebuffers s.n_image_views nv
    · intro e he
      cases he
  · cases sub <;> simp
  · split
    · intro e he
      rw [List.mem_singleton.mp he]
      exact ⟨_, rfl⟩
    · intro e he
      cases he
  · rcases pres with pb | _ | _ <;> try cases pb
    all_goals simp

/-- Claim C2, witness: the ordering at the fresh window with a clean
acquire and present. -/
theorem C2_draw_order_witness :
    ∃ pre flagEvs allocEvs n tail,
      (drawStep (Window_new 2)
          { acq := AcquireRes.ok 0 false, pres := PresentRes.ok false,
            new_n_image_views := 2, volumes_len := 1, set_cmds := 0 }).1 =
        pre ++ Ev.acquire false ::
          (flagEvs ++
            (Ev.wait_fence false :: Ev.reset_fence false :: Ev.toggle ::
              Ev.reset_pool false ::
              (allocEvs ++ List.replicate n (Ev.record_secondary false) ++
                [Ev.record_primary false, Ev.submit false, Ev.present])) ++ tail) ∧
      (∀ e ∈ pre, e = Ev.wait_fence (!false) ∨ is_setup_ev e = true) ∧
      (∀ e ∈ flagEvs, e = Ev.schedule_recreate) ∧
      (∀ e ∈ allocEvs, ∃ k, e = Ev.alloc_secondaries false k) ∧
      (∀ e ∈ tail, e = Ev.schedule_recreate ∨ e = Ev.abort) :=
  C2_draw_order (Window_new 2)
    { acq := AcquireRes.ok 0 false, pres := PresentRes.ok false,
      new_n_image_views := 2, volumes_len := 1, set_cmds := 0 } 0 false rfl

/-- Claim C3 counterexample: with a successful but suboptimal acquire the
source does not skip the frame: the draw is still submitted (and
presented), although the claim requires a suboptimal acquire to skip the
current frame's draw. -/
theorem C3_suboptimal_acquire_still_draws :
    acquire_stale (AcquireRes.ok 0 true) ∧
      ¬ draw_skipped ((drawStep (Window_new 3)
          { acq := AcquireRes.ok 0 true, pres := PresentRes.ok false,
            new_n_image_views := 3, volumes_len := 1, set_cmds := 0 }).1) := by
  refine ⟨Or.inr ⟨0, rfl⟩, ?_⟩
  intro h
  exact h false (by decide)

/-- Claim C3 as amended: an out-of-date acquire skips the frame (nothing
submitted or presented), schedules a rebuild and never aborts; a
suboptimal acquire schedules a rebuild but the frame is still drawn; an
out-of-date or suboptimal present schedules a rebuild and never aborts
(the frame was already drawn); any other acquire or present error aborts
the process. -/
theorem C3_staleness_policy (s : WindowState) (i : DrawIn) :
    (i.acq = AcquireRes.out_of_date →
      draw_skipped (drawStep s i).1 ∧ ¬ aborts (drawStep s i).1 ∧
        (drawStep s i).2.recreate_flag = true ∧ Ev.present ∉ (drawStep s i).1) ∧
    (∀ idx, i.acq = AcquireRes.ok idx true →
      (drawStep s i).2.recreate_flag = true ∧
        (i.pres ≠ PresentRes.other_error → ¬ aborts (drawStep s i).1) ∧
        Ev.submit s.frame ∈ (drawStep s i).1 ∧ Ev.present ∈ (drawStep s i).1) ∧
    (∀ idx sub, i.acq = AcquireRes.ok idx sub →
      ((i.pres = PresentRes.out_of_date ∨ i.pres = PresentRes.ok true) →
        (drawStep s i).2.recreate_flag = true ∧ ¬ aborts (drawStep s i).1) ∧
      (i.pres = PresentRes.other_error → aborts (drawStep s i).1)) ∧
    (i.acq = AcquireRes.other_error → aborts (drawStep s i).1) := by
  obtain ⟨acq, pres, nv, vl, sc⟩ := i
  simp only
  have hprenoabort : Ev.abort ∉ (if s.recreate_flag then
      recreate_trace s.frame s.n_framebuffers s.n_image_views nv else []) := by
    by_cases hrf : s.recreate_flag <;> simp only [hrf, ite_true, ite_false]
    · exact abort_not_mem_recreate s.frame s.n_framebuffers s.n_image_views nv
    · exact List.not_mem_nil _
  have hprenosubmit : ∀ b, Ev.submit b ∉ (if s.recreate_flag then
      recreate_trace s.frame s.n_framebuffers s.n_image_views nv else []) := by
    intro b
    by_cases hrf : s.recreate_flag <;> simp only [hrf, ite_true, ite_false]
    · exact submit_not_mem_recreate s.frame s.n_framebuffers s.n_image_views nv b
    · exact List.not_mem_nil _
  have hprenopresent : Ev.present ∉ (if s.recreate_flag then
      recreate_trace s.frame s.n_framebuffers s.n_image_views nv else []) := by
    by_cases hrf : s.recreate_flag <;> simp only [hrf, ite_true, ite_false]
    · exact present_not_mem_recreate s.frame s.n_framebuffers s.n_image_views nv
    · exact List.not_mem_nil _
  refine ⟨?_, ?_, ?_, ?_⟩
  · rintro rfl
    refine ⟨?_, ?_, ?_, ?_⟩
    · intro b
      simp only [drawStep, aborts, draw_skipped]
      simp only [List.mem_append, List.mem_cons, List.mem_singleton]
      push_neg
      exact ⟨hprenosubmit b, by simp, by simp⟩
    · simp only [drawStep, aborts]
      simp only [List.mem_append, List.mem_cons, List.mem_singleton]
      push_neg
      exact ⟨hprenoabort, by simp, by simp⟩
    · by_cases hrf : s.recreate_flag <;> simp [drawStep, recreate_state, hrf]
    · simp only [drawStep]
      simp only [List.mem_append, List.mem_cons, List.mem_singleton]
      push_neg
      exact ⟨hprenopresent, by simp, by simp⟩
  · rintro idx rfl
    refine ⟨?_, ?_, ?_, ?_⟩
    · by_cases hrf : s.recreate_flag <;>
        rcases pres with pb | _ | _ <;> try cases pb
      all_goals
        by_cases hf : s.frame <;>
          simp [drawStep, draw_submit_path, recreate_state, set_frame_data,
            frame_data_of, hrf, hf]
    · intro hpres
      rcases pres with pb | _ | _ <;> try cases pb
      · simp only [drawStep, draw_submit_path, aborts]
        by_cases hrf : s.recreate_flag <;>
          simp [hrf, hprenoabort, recreate_state] <;>
          exact abort_not_mem_recreate s.frame s.n_framebuffers s.n_image_views nv
      · simp only [drawStep, draw_submit_path, aborts]
        by_cases hrf : s.recreate_flag <;>
          simp [hrf, hprenoabort, recreate_state] <;>
          exact abort_not_mem_recreate s.frame s.n_framebuffers s.n_image_views nv
      · simp only [drawStep, draw_submit_path, aborts]
        by_cases hrf : s.recreate_flag <;>
          simp [hrf, hprenoabort, recreate_state] <;>
          exact abort_not_mem_recreate s.frame s.n_framebuffers s.n_image_views nv
      · exact absurd rfl hpres
    · rcases pres with pb | _ | _ <;> try cases pb
      all_goals
        by_cases hrf : s.recreate_flag <;>
          simp [drawStep, draw_submit_path, recreate_state, hrf]
    · rcases pres with pb | _ | _ <;> try cases pb
      all_goals
        by_cases hrf : s.recreate_flag <;>
          simp [drawStep, draw_submit_path, recreate_state, hrf]
  · rintro idx sub rfl
    refine ⟨?_, ?_⟩
    · intro hpres
      rcases hpres with rfl | rfl <;>
        refine ⟨?_, ?_⟩ <;>
        by_cases hrf : s.recreate_flag <;>
        cases sub <;>
        simp [drawStep, draw_submit_path, recreate_state, set_frame_data, frame_data_of,
          aborts, hrf, hprenoabort] <;>
        exact abort_not_mem_recreate s.frame s.n_framebuffers s.n_image_views nv
    · rintro rfl
      by_cases hrf : s.recreate_flag <;> cases sub <;>
        simp [drawStep, draw_submit_path, aborts, recreate_state, hrf]
  · rintro rfl
    simp [drawStep, aborts]

/-- Claim C3, witness: the amended policy applied to an out-of-date
acquire on the fresh window. -/
theorem C3_staleness_policy_witness :
    draw_skipped ((drawStep (Window_new 2)
        { acq := AcquireRes.out_of_date, pres := PresentRes.ok false,
          new_n_image_views := 2, volumes_len := 1, set_cmds := 0 }).1) ∧
      ¬ aborts ((drawStep (Window_new 2)
        { acq := AcquireRes.out_of_date, pres := PresentRes.ok false,
          new_n_image_views := 2, volumes_len := 1, set_cmds := 0 }).1) ∧
      ((drawStep (Window_new 2)
        { acq := AcquireRes.out_of_date, pres := PresentRes.ok false,
          new_n_image_views := 2, volumes_len := 1, set_cmds := 0 }).2).recreate_flag = true ∧
      Ev.present ∉ ((drawStep (Window_new 2)
        { acq := AcquireRes.out_of_date, pres := PresentRes.ok false,
          new_n_image_views := 2, volumes_len := 1, set_cmds := 0 }).1) :=
  (C3_staleness_policy (Window_new 2)
    { acq := AcquireRes.out_of_date, pres := PresentRes.ok false,
      new_n_image_views := 2, volumes_len := 1, set_cmds := 0 }).1 rfl

theorem drawStep_secondaries (s : WindowState) (i : DrawIn) (b : Bool) :
    (frame_data_of (drawStep s i).2 b).secondaries = (frame_data_of s b).secondaries ∨
      (frame_data_of (drawStep s i).2 b).secondaries
        = grow_secondaries (frame_data_of s b).secondaries i.volumes_len := by
  obtain ⟨acq, pres, nv, vl, sc⟩ := i
  cases acq <;> by_cases hrf : s.recreate_flag <;> by_cases hf : s.frame <;> cases b <;>
    try (rename_i pb; cases pb)
  all_goals
    rcases pres with pb | _ | _ <;> try cases pb
  all_goals
    first
      | (left; simp [drawStep, draw_submit_path, recreate_state, frame_data_of,
          set_frame_data, hrf, hf]; done)
      | (right; simp [drawStep, draw_submit_path, recreate_state, frame_data_of,
          set_frame_data, hrf, hf])

theorem drawStep_alloc_mem (s : WindowState) (i : DrawIn) (b : Bool) (k : Nat) :
    Ev.alloc_secondaries b k ∈ (drawStep s i).1 →
      (frame_data_of s b).secondaries.length < i.volumes_len := by
  obtain ⟨acq, pres, nv, vl, sc⟩ := i
  intro hmem
  cases acq <;> rcases pres with pb | _ | _ <;> try cases pb
  all_goals cases b
  all_goals by_cases hrf : s.recreate_flag
  all_goals by_cases hf : s.frame
  all_goals
    simp [drawStep, draw_submit_path, recreate_state, frame_data_of, set_frame_data,
      hrf, hf, alloc_not_mem_recreate] at hmem ⊢
  all_goals try (split at hmem)
  all_goals simp_all

/-- Claim C9: across one draw call no slot's secondary command buffer
list shrinks or is truncated (the new list extends the old one), and an
allocation of additional secondaries happens only when the number of
volumes to draw exceeds the slot's current list length. -/
theorem C9_secondaries_never_shrink (s : WindowState) (i : DrawIn) (b : Bool) :
    (∃ t, (frame_data_of s b).secondaries ++ t
        = (frame_data_of (drawStep s i).2 b).secondaries) ∧
      (∀ k, Ev.alloc_secondaries b k ∈ (drawStep s i).1 →
        (frame_data_of s b).secondaries.length < i.volumes_len) := by
  constructor
  · rcases drawStep_secondaries s i b with h | h
    · exact ⟨[], by rw [List.append_nil, h]⟩
    · obtain ⟨t, ht⟩ := grow_secondaries_extend (frame_data_of s b).secondaries i.volumes_len
      exact ⟨t, by rw [ht, h]⟩
  · intro k
    exact drawStep_alloc_mem s i b k

/-- Claim C9, witness: on the fresh window one volume exceeds the empty
pool, so the allocation recorded in the trace certifies the bound, and
the pool extends. -/
theorem C9_secondaries_never_shrink_witness :
    (∃ t, (frame_data_of (Window_new 2) false).secondaries ++ t
        = (frame_data_of (drawStep (Window_new 2)
            { acq := AcquireRes.ok 0 false, pres := PresentRes.ok false,
              new_n_image_views := 2, volumes_len := 1, set_cmds := 0 }).2 false).secondaries) ∧
      (frame_data_of (Window_new 2) false).secondaries.length < 1 :=
  ⟨(C9_secondaries_never_shrink (Window_new 2)
      { acq := AcquireRes.ok 0 false, pres := PresentRes.ok false,
        new_n_image_views := 2, volumes_len := 1, set_cmds := 0 } false).1,
   (C9_secondaries_never_shrink (Window_new 2)
      { acq := AcquireRes.ok 0 false, pres := PresentRes.ok false,
        new_n_image_views := 2, volumes_len := 1, set_cmds := 0 } false).2 1 (by decide)⟩

theorem drawStep_fence (s : WindowState) (i : DrawIn) (b : Bool) :
    (frame_data_of (drawStep s i).2 b).frame_finished
        = (frame_data_of s b).frame_finished ∨
      (frame_data_of (drawStep s i).2 b).frame_finished = FenceSt.pending := by
  obtain ⟨acq, pres, nv, vl, sc⟩ := i
  cases acq <;> by_cases hrf : s.recreate_flag <;> by_cases hf : s.frame <;> cases b <;>
    try (rename_i pb; cases pb)
  all_goals
    rcases pres with pb | _ | _ <;> try cases pb
  all_goals
    first
      | (left; simp [drawStep, draw_submit_path, recreate_state, frame_data_of,
          set_frame_data, hrf, hf]; done)
      | (right; simp [drawStep, draw_submit_path, recreate_state, frame_data_of,
          set_frame_data, hrf, hf])

/-- Claim C10: both slots' frame-complete fences are created in the
signaled state by Window::new, and in every reachable state each slot's
fence is signaled or attached to a previously submitted batch, so every
wait on it returns - in particular the first wait per slot returns with
no prior submission, and no separate first-frame path exists. -/
theorem C10_fences_start_signaled :
    (∀ n_views b, (frame_data_of (Window_new n_views) b).frame_finished
        = FenceSt.signaled) ∧
      (∀ s, Reachable s → ∀ b, fence_live (frame_data_of s b).frame_finished) := by
  constructor
  · intro n_views b
    cases b <;> rfl
  · intro s hr
    induction hr with
    | init n_views =>
      intro b
      cases b <;> exact Or.inl rfl
    | step s' i' _ ih =>
      intro b
      rcases drawStep_fence s' i' b with h | h
      · unfold fence_live
        rw [h]
        exact ih b
      · unfold fence_live
        rw [h]
        exact Or.inr rfl

/-- Claim C10, witness: the invariant via reachability at the fresh
window. -/
theorem C10_fences_start_signaled_witness :
    fence_live (frame_data_of (Window_new 3) false).frame_finished :=
  C10_fences_start_signaled.2 (Window_new 3) (Reachable.init 3) false

end SpaceThing
